import Mathlib

set_option maxRecDepth 1000000

/-!
Shallow embedding of the bookstore inventory/audit subsystem
(`src/Task_two/book.py`, `src/Task_two/inventory.py`).

Python `float` values are modelled exactly: a value is an unreduced
fraction `Frac` (numerator, positive denominator), and `roundD` rounds a
fraction onto the IEEE-754 binary64 grid with round-to-nearest, ties to
even (normal range; none of the program's monetary values leave it).
CPython's `*` and `/` on floats, and `int / int` true division, are
correctly rounded, so each is modelled as the exact rational operation
followed by `roundD`.  `math.ceil` on a float is exact.  All arithmetic
is on `Int`/`Nat` so that concrete runs are decidable by kernel
reduction.

Python `str.strip` / `str.lower` and the substring operator `in` are
modelled on the character lists underlying `String` (`lower` handles the
ASCII range, which covers every string these claims mention).
-/

namespace Task2

/-- Exact (unreduced) fraction `num / den`; every fraction the embedding
builds has a positive denominator. -/
structure Frac where
  num : ℤ
  den : ℤ
deriving DecidableEq, Repr

/-- The rational value of a fraction. -/
def Frac.val (x : Frac) : ℚ := (x.num : ℚ) / (x.den : ℚ)

/-- Value equality of fractions (cross-multiplication; agrees with
`Frac.val` equality when both denominators are positive). -/
def Frac.eqv (x y : Frac) : Prop := x.num * y.den = y.num * x.den

instance : DecidablePred fun p : Frac × Frac => p.1.eqv p.2 := by
  intro p; unfold Frac.eqv; infer_instance

instance Frac.decEqv (x y : Frac) : Decidable (x.eqv y) := by
  unfold Frac.eqv; infer_instance

/-- Exact product of fractions. -/
def Frac.mul (x y : Frac) : Frac := ⟨x.num * y.num, x.den * y.den⟩

/-- Negation. -/
def Frac.neg (x : Frac) : Frac := ⟨-x.num, x.den⟩

/-- Floor of a fraction with positive denominator (`Int.ediv` is floor
division for a positive divisor). -/
def Frac.floor (x : Frac) : ℤ := Int.ediv x.num x.den

/-- Ceiling of a fraction with positive denominator. -/
def Frac.ceil (x : Frac) : ℤ := -(Frac.floor ⟨-x.num, x.den⟩)

/-- Round a fraction (positive denominator) to the nearest integer, ties
to even — the final rounding step of IEEE-754 arithmetic. -/
def rndNE (x : Frac) : ℤ :=
  let f := Int.ediv x.num x.den
  let r2 := 2 * (x.num - f * x.den)
  if r2 < x.den then f
  else if x.den < r2 then f + 1
  else if f % 2 = 0 then f else f + 1

/-- Number of binary digits of `n` (with explicit fuel; structural, so
the kernel can evaluate it). -/
def bitlen : ℕ → ℕ → ℕ
  | 0, _ => 0
  | f + 1, n => if n = 0 then 0 else bitlen f (n / 2) + 1

/-- `⌊log₂ (a / b)⌋` for positive integers `a`, `b`: bracket the quotient
by bit lengths, then correct the candidate exponent by one comparison. -/
def floorLog2 (a b : ℤ) : ℤ :=
  let la : ℤ := bitlen 4096 a.toNat
  let lb : ℤ := bitlen 4096 b.toNat
  let e0 : ℤ := la - lb
  if 0 ≤ e0 then (if b * 2 ^ e0.toNat ≤ a then e0 else e0 - 1)
  else (if b ≤ a * 2 ^ (-e0).toNat then e0 else e0 - 1)

/-- Multiply a fraction by `2 ^ k` exactly. -/
def Frac.scalePow2 (x : Frac) (k : ℤ) : Frac :=
  if 0 ≤ k then ⟨x.num * 2 ^ k.toNat, x.den⟩
  else ⟨x.num, x.den * 2 ^ (-k).toNat⟩

/-- The fraction `n · 2 ^ k`. -/
def intShift (n : ℤ) (k : ℤ) : Frac :=
  if 0 ≤ k then ⟨n * 2 ^ k.toNat, 1⟩ else ⟨n, 2 ^ (-k).toNat⟩

/-- Round a positive fraction to binary64: scale the value into the
mantissa range `[2^52, 2^53)`, round to nearest even, scale back. -/
def roundDpos (x : Frac) : Frac :=
  let e := floorLog2 x.num x.den
  intShift (rndNE (x.scalePow2 (52 - e))) (e - 52)

/-- Round a fraction (positive denominator) to the nearest IEEE-754
binary64 value (normal range, round-to-nearest, ties to even); `0 ↦ 0`,
negatives by symmetry. -/
def roundD (x : Frac) : Frac :=
  if 0 < x.num then roundDpos x
  else if x.num < 0 then Frac.neg (roundDpos x.neg)
  else ⟨0, 1⟩

/-- Correctly rounded double multiplication (CPython `float * float`). -/
def fmul (a b : Frac) : Frac := roundD (a.mul b)

/-- CPython `int / int` (and `int` → `float` conversion with `m = 1`):
correctly rounded true division. -/
def fdivInt (n m : ℤ) : Frac := roundD ⟨n, m⟩

/-- The double denoted by a decimal literal `n / d` in Python source
(the parser rounds it to the nearest binary64 value). -/
def pyFloat (n d : ℤ) : Frac := roundD ⟨n, d⟩

end Task2

namespace Task2

/-- Python `str.strip` on a character list. -/
def stripList (l : List Char) : List Char :=
  ((l.dropWhile Char.isWhitespace).reverse.dropWhile Char.isWhitespace).reverse

/-- Python `str.strip`. -/
def pyStrip (s : String) : String := ⟨stripList s.data⟩

/-- Python `str.lower` (ASCII range). -/
def pyLower (s : String) : String := ⟨s.data.map Char.toLower⟩

/-- Python's substring test `p in l` on character lists. -/
def substrB (p : List Char) : List Char → Bool
  | [] => p.isPrefixOf []
  | c :: rest => p.isPrefixOf (c :: rest) || substrB p rest

end Task2

namespace Task2

/-- `Book` (`book.py`): the fields stored on the instance. -/
structure Book where
  title : String
  author : String
  price : Frac
  stock : ℤ
deriving DecidableEq, Repr

/-- `math.ceil(p * 100) / 100` on doubles (`p * 100` is a rounded double
product, `math.ceil` is exact, `int / int` is correctly rounded true
division); used by `Book.__init__` and `Book.update_price`. -/
def ceilToCents (p : Frac) : Frac := fdivInt (Frac.ceil (fmul p (fdivInt 100 1))) 100

/-- `Book.__init__`: trims the text fields, ceiling-rounds the price to
cents, clamps the stock to `max(0, stock)`. -/
def Book.init (title author : String) (price : Frac) (stock : ℤ) : Book :=
  { title := pyStrip title
    author := pyStrip author
    price := ceilToCents price
    stock := max 0 stock }

/-- `Book.update_stock`: rejects a negative resulting stock with no
mutation, otherwise commits `stock + quantity`. -/
def Book.update_stock (b : Book) (quantity : ℤ) : Bool × Book :=
  let new_stock := b.stock + quantity
  if new_stock < 0 then (false, b)
  else (true, { b with stock := new_stock })

/-- `Book.update_price`: ceiling-rounds the new price; always succeeds. -/
def Book.update_price (b : Book) (new_price : Frac) : Book :=
  { b with price := ceilToCents new_price }

/-- `Book.calculate_value`: `math.ceil(self.price * self.stock * 100) / 100`
on doubles, evaluated left to right (`self.stock` and `100` are converted
to doubles before the multiplications). -/
def Book.calculate_value (b : Book) : Frac :=
  fdivInt (Frac.ceil (fmul (fmul b.price (fdivInt b.stock 1)) (fdivInt 100 1))) 100

/-- `Book.to_dict` serialises exactly the four stored fields; modelled by
the record of those fields (shared with `RawBook` below via `some`). -/
def Book.to_dict (b : Book) : (String × String × Frac × ℤ) :=
  (b.title, b.author, b.price, b.stock)

end Task2

namespace Task2

/-- The `details` dictionary passed to `log_transaction`, one shape per
call site in `inventory.py`. -/
inductive Details where
  | addBook (title author : String) (price : Frac) (initial_stock : ℤ)
  | stockUpdate (old_stock new_stock change : ℤ) (reason : String)
  | priceUpdate (old_price new_price : Frac)
  | removeBook (title author : String) (final_stock : ℤ)
deriving DecidableEq, Repr

/-- One entry of `transaction_log`: the dictionary appended by
`log_transaction` (`timestamp` is `datetime.now().isoformat()`, threaded
through the operations as an explicit argument). -/
structure LogEntry where
  timestamp : String
  action : String
  title : String
  details : Details
deriving DecidableEq, Repr

/-- `BookstoreInventory`'s mutable state: the `books` dict (insertion
ordered, unique keys) as an association list, and `transaction_log`. -/
structure Inventory where
  books : List (String × Book)
  transaction_log : List LogEntry
deriving DecidableEq, Repr

/-- The state right after `__init__` runs its field assignments (before
`load_inventory`). -/
def emptyInventory : Inventory := ⟨[], []⟩

/-- Python `dict.get` / `in`: the value at a key, if present. -/
def dictGet (books : List (String × Book)) (title : String) : Option Book :=
  (books.find? fun kb => kb.1 = title).map Prod.snd

/-- Python `d[k] = v`: replace the value in place if the key exists,
else append the new pair (dicts preserve insertion order). -/
def dictInsert (books : List (String × Book)) (k : String) (b : Book) :
    List (String × Book) :=
  if (dictGet books k).isSome then
    books.map fun kb => if kb.1 = k then (k, b) else kb
  else books ++ [(k, b)]

/-- In-place mutation of the `Book` object stored at a key (the dict
keeps holding the same reference, so only the value changes). -/
def dictReplace (books : List (String × Book)) (k : String) (b : Book) :
    List (String × Book) :=
  books.map fun kb => if kb.1 = k then (k, b) else kb

/-- Python `del d[k]`. -/
def dictDelete (books : List (String × Book)) (k : String) :
    List (String × Book) :=
  books.eraseP fun kb => kb.1 = k

/-- `log_transaction`: appends one entry. -/
def log_transaction (log : List LogEntry) (action : String) (title : String)
    (details : Details) (ts : String) : List LogEntry :=
  log ++ [⟨ts, action, title, details⟩]

/-- `get_book_by_title`. -/
def Inventory.get_book_by_title (inv : Inventory) (title : String) : Option Book :=
  dictGet inv.books title

/-- `add_book`: builds the `Book` (trimming, price rounding, stock
clamping), returns the existing key unchanged if it is already present
(no ledger entry), else inserts and logs `ADD_BOOK` with the raw `stock`
argument as `initial_stock`. -/
def Inventory.add_book (inv : Inventory) (title author : String) (price : Frac)
    (stock : ℤ) (ts : String) : String × Inventory :=
  let book := Book.init title author price stock
  if (dictGet inv.books book.title).isSome then (book.title, inv)
  else
    (book.title,
      { books := inv.books ++ [(book.title, book)]
        transaction_log := log_transaction inv.transaction_log "ADD_BOOK" book.title
          (.addBook book.title book.author book.price stock) ts })

/-- `find_book`: lowercases then strips the query, and keeps every book
whose lowercased title or author contains it (the source tests the title
twice; the redundant third disjunct is kept). -/
def Inventory.find_book (inv : Inventory) (search_term : String) : List Book :=
  let q := pyStrip (pyLower search_term)
  (inv.books.map Prod.snd).filter fun b =>
    substrB q.data (pyLower b.title).data || substrB q.data (pyLower b.author).data
      || substrB q.data (pyLower b.title).data

/-- `update_stock`: `False` with no change if the key is absent or the
book rejects the delta; else replaces the book's stock and logs one
`STOCK_UPDATE` entry. -/
def Inventory.update_stock (inv : Inventory) (title : String)
    (quantity_change : ℤ) (reason ts : String) : Bool × Inventory :=
  match dictGet inv.books title with
  | none => (false, inv)
  | some book =>
    let old_stock := book.stock
    match book.update_stock quantity_change with
    | (true, book1) =>
      (true,
        { books := dictReplace inv.books title book1
          transaction_log := log_transaction inv.transaction_log "STOCK_UPDATE" title
            (.stockUpdate old_stock book1.stock quantity_change reason) ts })
    | (false, _) => (false, inv)

/-- `sell_book`. -/
def Inventory.sell_book (inv : Inventory) (title : String) (quantity : ℤ)
    (ts : String) : Bool × Inventory :=
  inv.update_stock title (-quantity) "Sale" ts

/-- `restock_book`. -/
def Inventory.restock_book (inv : Inventory) (title : String) (quantity : ℤ)
    (ts : String) : Bool × Inventory :=
  inv.update_stock title quantity "Restock" ts

/-- `update_price`: `False` if the key is absent; else rounds and stores
the new price and logs one `PRICE_UPDATE` entry. -/
def Inventory.update_price (inv : Inventory) (title : String) (new_price : Frac)
    (ts : String) : Bool × Inventory :=
  match dictGet inv.books title with
  | none => (false, inv)
  | some book =>
    let book1 := book.update_price new_price
    (true,
      { books := dictReplace inv.books title book1
        transaction_log := log_transaction inv.transaction_log "PRICE_UPDATE" title
          (.priceUpdate book.price book1.price) ts })

/-- `remove_book`: `False` if the key is absent; when `stock > 0` the
user's `input()` answer (`confirm`, passed explicitly here) must lower
to `"y"`, else the operation is cancelled with no change; otherwise one
`REMOVE_BOOK` entry is logged and the key deleted. -/
def Inventory.remove_book (inv : Inventory) (title : String) (confirm : String)
    (ts : String) : Bool × Inventory :=
  match dictGet inv.books title with
  | none => (false, inv)
  | some book =>
    if 0 < book.stock ∧ pyLower confirm ≠ "y" then (false, inv)
    else
      (true,
        { books := dictDelete inv.books title
          transaction_log := log_transaction inv.transaction_log "REMOVE_BOOK" title
            (.removeBook book.title book.author book.stock) ts })

end Task2

namespace Task2

/-- A book dictionary as read back from the JSON file: any of the four
required fields may be missing (`Book.from_dict` then raises `KeyError`,
modelled by `none`; a non-dict value raising `TypeError` is modelled the
same way). -/
structure RawBook where
  title : Option String
  author : Option String
  price : Option Frac
  stock : Option ℤ
deriving DecidableEq, Repr

/-- `Book.from_dict`: reads the four fields and calls `Book.__init__`
(which trims, rounds and clamps again); raises if any field is missing. -/
def Book.from_dict (rb : RawBook) : Option Book :=
  match rb.title, rb.author, rb.price, rb.stock with
  | some t, some a, some p, some s => some (Book.init t a p s)
  | _, _, _, _ => none

/-- The parsed content of an inventory file: either a document whose
top-level structure `json.load` and the `data.get` calls accept (its
`books` and `transaction_log` parts; a missing key defaults to empty),
or anything that makes parsing or field access raise. -/
inductive FileContent where
  | malformed
  | doc (books : List (String × RawBook)) (transaction_log : List LogEntry)
deriving DecidableEq, Repr

/-- The two file-system paths the gateway touches: `json_file` and
`json_file + ".backup"`. -/
structure FS where
  primary : Option FileContent
  backup : Option FileContent
deriving DecidableEq, Repr

/-- The `os.rename(self.json_file, backup_file)` step of `save_inventory`
(runs only when the primary file exists; overwrites any prior backup). -/
def renameToBackup (fs : FS) : FS :=
  match fs.primary with
  | some c => { primary := none, backup := some c }
  | none => fs

/-- The methods and instance attributes defined on `BookstoreInventory`
in `inventory.py` (the attribute lookup set for `self.…` expressions). -/
def bookstoreInventoryAttrs : List String :=
  ["json_file", "books", "transaction_log",
   "save_inventory", "load_inventory", "add_book", "find_book",
   "get_book_by_title", "update_stock", "sell_book", "restock_book",
   "update_price", "remove_book", "log_transaction", "view_transaction_log"]

/-- `save_inventory`: renames an existing primary file to the backup
path, then builds the `data` dictionary.  Building it evaluates
`self.calculate_total_inventory_value()`, and `calculate_total_inventory_value`
is not among `bookstoreInventoryAttrs` — the class never defines it —
so an `AttributeError` is raised before `open(...)` runs; the `except`
clause catches it, prints the error and returns `False`.  No file is
ever written. -/
def save_inventory (inv : Inventory) (fs : FS) : Bool × FS :=
  let fs1 := renameToBackup fs
  -- `data = { ..., 'total_inventory_value': self.calculate_total_inventory_value() }`
  -- raises AttributeError here; control jumps to `except`.
  (false, fs1)

/-- The book-loading loop of `load_inventory`: inserts reconstructed
books one by one into the current dict, stopping at the first book whose
reconstruction raises (the books inserted so far stay inserted). -/
def loadBooksLoop : List (String × RawBook) → List (String × Book) →
    Bool × List (String × Book)
  | [], acc => (true, acc)
  | (t, rb) :: rest, acc =>
    match Book.from_dict rb with
    | some b => loadBooksLoop rest (dictInsert acc t b)
    | none => (false, acc)

/-- `load_inventory`: an absent file is a fresh start (`True`, state
untouched); an unparsable file raises inside the `try`, is caught, and
leaves the state untouched (`False`); a parsed document has its books
inserted one by one and, only if all succeed, `transaction_log` is then
replaced by the document's log. -/
def load_inventory (inv : Inventory) (fs : FS) : Bool × Inventory :=
  match fs.primary with
  | none => (true, inv)
  | some .malformed => (false, inv)
  | some (.doc bks log) =>
    match loadBooksLoop bks inv.books with
    | (true, books1) => (true, { books := books1, transaction_log := log })
    | (false, books1) => (false, { inv with books := books1 })

end Task2

namespace Task2

/-! ### Concrete states used by scenario theorems -/

/-- A one-book inventory with one ledger entry. -/
def demoBook : Book := ⟨"Dune", "Herbert", ⟨21, 1⟩, 3⟩

/-- A populated repository state. -/
def demoInv : Inventory :=
  ⟨[("Dune", demoBook)],
   [⟨"t0", "ADD_BOOK", "Dune", .addBook "Dune" "Herbert" ⟨21, 1⟩ 3⟩]⟩

/-- A well-formed persisted document (used as the pre-existing file in
the double-save scenario). -/
def preexistingContent : FileContent :=
  .doc [("A", ⟨some "A", some "B", some ⟨1, 1⟩, some 1⟩)] []

/-- A persisted `books` dict whose first book parses and whose second
book is missing its `author` field. -/
def partialBooks : List (String × RawBook) :=
  [("Good", ⟨some "Good", some "G", some ⟨2, 1⟩, some 1⟩),
   ("Bad", ⟨some "Bad", none, some ⟨2, 1⟩, some 1⟩)]

/-- A document containing `partialBooks`. -/
def partialDoc : FileContent := .doc partialBooks []

end Task2

namespace Task2

/-- C1: the spec says the derived total inventory value (the sum of the
independently ceiling-rounded per-book values) is written to the
document's `total_inventory_value` field on save.  In the code,
`save_inventory` calls `self.calculate_total_inventory_value()`, but
`BookstoreInventory` defines no such attribute, so every save raises
`AttributeError` inside the `try`, is caught, writes no document at all
and returns `False` — after having already renamed any existing file to
`.backup`.  The claim describes the clear intent; the code is a slip. -/
theorem save_total_value_never_written :
    bookstoreInventoryAttrs.contains "calculate_total_inventory_value" = false ∧
    ∀ (inv : Inventory) (fs : FS),
      save_inventory inv fs = (false, renameToBackup fs) ∧
        (save_inventory inv fs).2.primary = none := by
  refine ⟨by decide, fun inv fs => ⟨rfl, ?_⟩⟩
  show (renameToBackup fs).primary = none
  unfold renameToBackup
  cases h : fs.primary <;> simp [h]

/-- C2: the claim's consequent — after two saves, the `.backup` file
holds the first save's document and the primary file the second's — is
false: a save never writes a file (the `AttributeError` described at
`save_inventory` aborts it), so after two saves on a path holding
`preexistingContent` the backup holds that ORIGINAL content and the
primary file does not exist at all. -/
theorem save_twice_leaves_no_primary :
    save_inventory demoInv ⟨some preexistingContent, none⟩ =
      (false, ⟨none, some preexistingContent⟩) ∧
    save_inventory demoInv
        (save_inventory demoInv ⟨some preexistingContent, none⟩).2 =
      (false, ⟨none, some preexistingContent⟩) ∧
    (save_inventory demoInv
        (save_inventory demoInv ⟨some preexistingContent, none⟩).2).2.primary = none := by
  exact ⟨rfl, rfl, rfl⟩

/-- C3: save-then-load does not round-trip: the save writes nothing (see
`save_inventory`), so loading the path afterwards finds no file and
yields the freshly-initialised empty repository, not the non-empty
pre-save state. -/
theorem save_load_roundtrip_destroys_state :
    demoInv.books ≠ [] ∧
    save_inventory demoInv ⟨none, none⟩ = (false, ⟨none, none⟩) ∧
    load_inventory emptyInventory (save_inventory demoInv ⟨none, none⟩).2 =
      (true, emptyInventory) ∧
    emptyInventory.books = [] ∧ emptyInventory.transaction_log = [] := by
  exact ⟨by decide, rfl, rfl, rfl, rfl⟩

/-- C6: `add("Dune","Herbert",21.004,3)` under the program's binary64
arithmetic: the stored price is the double `21.01` (`pyFloat 2101 100`),
`calculate_value()` returns the double `63.03` (`pyFloat 6303 100`), and
`math.ceil(21.01 * 3 * 100)` is exactly `6303` (the product
`63.03 * 100` rounds to exactly `6303.0`). -/
theorem add_dune_scenario :
    dictGet (emptyInventory.add_book "Dune" "Herbert" (pyFloat 21004 1000) 3 "t0").2.books
        "Dune" = some (Book.init "Dune" "Herbert" (pyFloat 21004 1000) 3) ∧
    (Book.init "Dune" "Herbert" (pyFloat 21004 1000) 3).price.eqv (pyFloat 2101 100) ∧
    (Book.init "Dune" "Herbert" (pyFloat 21004 1000) 3).calculate_value.eqv
      (pyFloat 6303 100) ∧
    Frac.ceil (fmul (fmul (pyFloat 2101 100) (fdivInt 3 1)) (fdivInt 100 1)) = 6303 := by
  refine ⟨by decide, by decide, by decide, by decide⟩

end Task2

namespace Task2

/-! ### Sign lemmas for the rounding pipeline -/

lemma intShift_den_pos (n k : ℤ) : 0 < (intShift n k).den := by
  unfold intShift
  split <;> simp

lemma intShift_num_nonneg (n k : ℤ) (h : 0 ≤ n) : 0 ≤ (intShift n k).num := by
  unfold intShift
  split
  · exact mul_nonneg h (by positivity)
  · exact h

lemma rndNE_nonneg (x : Frac) (hn : 0 ≤ x.num) (hd : 0 < x.den) : 0 ≤ rndNE x := by
  unfold rndNE
  have hf : 0 ≤ Int.ediv x.num x.den := Int.ediv_nonneg hn hd.le
  dsimp only
  split
  · exact hf
  · split
    · omega
    · split <;> omega

lemma scalePow2_num_nonneg (x : Frac) (k : ℤ) (h : 0 ≤ x.num) :
    0 ≤ (x.scalePow2 k).num := by
  unfold Frac.scalePow2
  split
  · exact mul_nonneg h (by positivity)
  · exact h

lemma scalePow2_den_pos (x : Frac) (k : ℤ) (h : 0 < x.den) :
    0 < (x.scalePow2 k).den := by
  unfold Frac.scalePow2
  split
  · exact h
  · exact mul_pos h (by positivity)

lemma roundDpos_num_nonneg (x : Frac) (hn : 0 ≤ x.num) (hd : 0 < x.den) :
    0 ≤ (roundDpos x).num := by
  unfold roundDpos
  exact intShift_num_nonneg _ _
    (rndNE_nonneg _ (scalePow2_num_nonneg x _ hn) (scalePow2_den_pos x _ hd))

lemma roundDpos_den_pos (x : Frac) : 0 < (roundDpos x).den := by
  unfold roundDpos
  exact intShift_den_pos _ _

lemma roundD_num_nonneg (x : Frac) (hn : 0 ≤ x.num) (hd : 0 < x.den) :
    0 ≤ (roundD x).num := by
  unfold roundD
  split
  · exact roundDpos_num_nonneg x hn hd
  · split
    · omega
    · simp

lemma roundD_den_pos (x : Frac) : 0 < (roundD x).den := by
  unfold roundD
  split
  · exact roundDpos_den_pos x
  · split
    · exact roundDpos_den_pos _
    · simp

lemma fracCeil_nonneg (x : Frac) (hn : 0 ≤ x.num) (hd : 0 < x.den) :
    0 ≤ Frac.ceil x := by
  unfold Frac.ceil Frac.floor
  dsimp only
  have h1 : Int.ediv (-x.num) x.den ≤ Int.ediv 0 x.den :=
    Int.ediv_le_ediv hd (by omega)
  have h2 : Int.ediv 0 x.den = 0 := Int.zero_ediv x.den
  omega

lemma ceilToCents_nonneg (p : Frac) (hn : 0 ≤ p.num) (hd : 0 < p.den) :
    0 ≤ (ceilToCents p).num ∧ 0 < (ceilToCents p).den := by
  unfold ceilToCents fdivInt fmul
  constructor
  · apply roundD_num_nonneg _ _ (by norm_num)
    apply fracCeil_nonneg
    · apply roundD_num_nonneg
      · exact mul_nonneg hn (roundD_num_nonneg ⟨100, 1⟩ (by norm_num) (by norm_num))
      · exact mul_pos hd (roundD_den_pos ⟨100, 1⟩)
    · exact roundD_den_pos _
  · exact roundD_den_pos _

lemma fracVal_nonneg (x : Frac) (hn : 0 ≤ x.num) (hd : 0 < x.den) : 0 ≤ x.val := by
  unfold Frac.val
  apply div_nonneg
  · exact_mod_cast hn
  · exact_mod_cast hd.le

/-- C7: the Entity invariants.  `Book.__init__` clamps the stock argument
to `max(0, stock)` (never failing), so a fresh book has non-negative
stock; `Book.update_stock` rejects any delta that would make the stock
negative and leaves the book unchanged, and preserves non-negativity
when it commits; with a price argument that is non-negative (the stated
precondition), `Book.__init__` and `Book.update_price` store a
non-negative ceiling-rounded price. -/
theorem entity_invariants (t a : String) (p : Frac) (s : ℤ) (b : Book) (q : ℤ)
    (hn : 0 ≤ p.num) (hd : 0 < p.den) :
    (Book.init t a p s).stock = max 0 s ∧
    0 ≤ (Book.init t a p s).stock ∧
    (0 ≤ b.stock → 0 ≤ (b.update_stock q).2.stock) ∧
    (b.stock + q < 0 → b.update_stock q = (false, b)) ∧
    0 ≤ (Book.init t a p s).price.val ∧
    0 ≤ (b.update_price p).price.val := by
  refine ⟨rfl, le_max_left 0 s, ?_, ?_, ?_, ?_⟩
  · intro hb
    unfold Book.update_stock
    dsimp only
    split
    · exact hb
    · rename_i h
      show 0 ≤ b.stock + q
      omega
  · intro hneg
    unfold Book.update_stock
    dsimp only
    rw [if_pos hneg]
  · have h := ceilToCents_nonneg p hn hd
    exact fracVal_nonneg _ h.1 h.2
  · have h := ceilToCents_nonneg p hn hd
    exact fracVal_nonneg _ h.1 h.2

/-- Witness for `entity_invariants`: the hypotheses hold at the concrete
price `21/1`, book `demoBook` and delta `-5`. -/
theorem entity_invariants_witness :
    (Book.init "T" "A" ⟨21, 1⟩ (-2)).stock = max 0 (-2) ∧
    0 ≤ (demoBook.update_stock (-5)).2.stock ∧
    demoBook.update_stock (-5) = (false, demoBook) ∧
    0 ≤ (demoBook.update_price ⟨21, 1⟩).price.val := by
  have h := entity_invariants "T" "A" ⟨21, 1⟩ (-2) demoBook (-5)
    (by norm_num) (by norm_num)
  exact ⟨h.1, h.2.2.1 (by decide), h.2.2.2.1 (by decide), h.2.2.2.2.2⟩

end Task2

namespace Task2

lemma dictGet_dictReplace (books : List (String × Book)) (t : String) (b1 : Book)
    (h : (dictGet books t).isSome) :
    dictGet (dictReplace books t b1) t = some b1 := by
  induction books with
  | nil => simp [dictGet] at h
  | cons kb rest ih =>
    by_cases hk : kb.1 = t
    · show dictGet ((if kb.1 = t then (t, b1) else kb) :: dictReplace rest t b1) t
        = some b1
      rw [if_pos hk]
      unfold dictGet
      rw [List.find?_cons_of_pos _ (by simp)]
      rfl
    · have h2 : (dictGet rest t).isSome := by
        unfold dictGet at h
        rw [List.find?_cons_of_neg _ (by simp [hk])] at h
        exact h
      show dictGet ((if kb.1 = t then (t, b1) else kb) :: dictReplace rest t b1) t
        = some b1
      rw [if_neg hk]
      unfold dictGet
      rw [List.find?_cons_of_neg _ (by simp [hk])]
      exact ih h2

/-- C4: `update_stock` fails with no state change (no book mutated, no
ledger entry) when the key is absent, and likewise when the resulting
stock would be negative; otherwise it stores `stock + delta` on the
book and appends exactly one `STOCK_UPDATE` entry recording the old
stock, new stock, change and reason. -/
theorem update_stock_cases (inv : Inventory) (title : String) (qc : ℤ)
    (reason ts : String) :
    (dictGet inv.books title = none →
      inv.update_stock title qc reason ts = (false, inv)) ∧
    (∀ b, dictGet inv.books title = some b → b.stock + qc < 0 →
      inv.update_stock title qc reason ts = (false, inv)) ∧
    (∀ b, dictGet inv.books title = some b → 0 ≤ b.stock + qc →
      inv.update_stock title qc reason ts =
        (true,
          { books := dictReplace inv.books title { b with stock := b.stock + qc }
            transaction_log := inv.transaction_log ++
              [⟨ts, "STOCK_UPDATE", title,
                 .stockUpdate b.stock (b.stock + qc) qc reason⟩] }) ∧
      dictGet (inv.update_stock title qc reason ts).2.books title =
        some { b with stock := b.stock + qc }) := by
  refine ⟨?_, ?_, ?_⟩
  · intro h
    unfold Inventory.update_stock
    rw [h]
  · intro b hb hneg
    unfold Inventory.update_stock
    rw [hb]
    dsimp only
    unfold Book.update_stock
    dsimp only
    rw [if_pos hneg]
  · intro b hb hpos
    have hres : inv.update_stock title qc reason ts =
        (true,
          { books := dictReplace inv.books title { b with stock := b.stock + qc }
            transaction_log := inv.transaction_log ++
              [⟨ts, "STOCK_UPDATE", title,
                 .stockUpdate b.stock (b.stock + qc) qc reason⟩] }) := by
      unfold Inventory.update_stock
      rw [hb]
      dsimp only
      unfold Book.update_stock
      dsimp only
      rw [if_neg (by omega)]
      rfl
    refine ⟨hres, ?_⟩
    rw [hres]
    exact dictGet_dictReplace _ _ _ (by rw [hb]; rfl)

/-- Witness for `update_stock_cases`: the spec's own scenario —
`update_stock("Dune", -5, "oversell")` on stock `3` fails and leaves the
repository unchanged — plus a successful `+2` update. -/
theorem update_stock_cases_witness :
    demoInv.update_stock "Dune" (-5) "oversell" "t1" = (false, demoInv) ∧
    dictGet (demoInv.update_stock "Dune" 2 "restock" "t1").2.books "Dune" =
      some { demoBook with stock := 5 } := by
  have h := update_stock_cases demoInv "Dune" (-5) "oversell" "t1"
  have h2 := update_stock_cases demoInv "Dune" 2 "restock" "t1"
  exact ⟨h.2.1 demoBook (by decide) (by decide),
         (h2.2.2 demoBook (by decide) (by decide)).2⟩

/-- C5: `add_book` with an already-present key (the stripped title) is a
no-op returning the existing key — no exception, no ledger entry; with a
fresh key it appends the new book and exactly one `ADD_BOOK` entry whose
details are the stored title, author and rounded price together with the
RAW `stock` argument as `initial_stock`. -/
theorem add_book_cases (inv : Inventory) (title author : String) (price : Frac)
    (stock : ℤ) (ts : String) :
    ((dictGet inv.books (pyStrip title)).isSome = true →
      inv.add_book title author price stock ts = (pyStrip title, inv)) ∧
    (dictGet inv.books (pyStrip title) = none →
      inv.add_book title author price stock ts =
        (pyStrip title,
          { books := inv.books ++ [(pyStrip title, Book.init title author price stock)]
            transaction_log := inv.transaction_log ++
              [⟨ts, "ADD_BOOK", pyStrip title,
                 .addBook (pyStrip title) (pyStrip author) (ceilToCents price) stock⟩] })) := by
  constructor
  · intro h
    unfold Inventory.add_book
    dsimp only
    rw [show (Book.init title author price stock).title = pyStrip title from rfl, h]
    rfl
  · intro h
    unfold Inventory.add_book
    dsimp only
    rw [show (Book.init title author price stock).title = pyStrip title from rfl, h]
    rfl

/-- Witness for `add_book_cases`: adding `"Dune "` (strips to the
existing key) is a no-op on `demoInv`; adding a fresh key `"New"`
appends the book and one `ADD_BOOK` entry. -/
theorem add_book_cases_witness :
    demoInv.add_book "Dune " "X" ⟨5, 1⟩ 1 "t2" = ("Dune", demoInv) ∧
    demoInv.add_book "New" "X" ⟨5, 1⟩ 1 "t2" =
      ("New",
        { books := demoInv.books ++ [("New", Book.init "New" "X" ⟨5, 1⟩ 1)]
          transaction_log := demoInv.transaction_log ++
            [⟨"t2", "ADD_BOOK", "New", .addBook "New" "X" (ceilToCents ⟨5, 1⟩) 1⟩] }) := by
  have h1 := add_book_cases demoInv "Dune " "X" ⟨5, 1⟩ 1 "t2"
  have h2 := add_book_cases demoInv "New" "X" ⟨5, 1⟩ 1 "t2"
  exact ⟨h1.1 (by decide), h2.2 (by decide)⟩

/-- C9: `remove_book` fails with no change when the key is absent; with
a present key, positive stock and a confirmation answer that does not
lower to `"y"` it aborts with no change and no ledger entry; with the
confirmation `"y"` (or stock `0`) it appends exactly one `REMOVE_BOOK`
entry with the book's title, author and final stock, and deletes the
key. -/
theorem remove_book_cases (inv : Inventory) (title confirm ts : String) :
    (dictGet inv.books title = none →
      inv.remove_book title confirm ts = (false, inv)) ∧
    (∀ b, dictGet inv.books title = some b → 0 < b.stock →
      pyLower confirm ≠ "y" →
      inv.remove_book title confirm ts = (false, inv)) ∧
    (∀ b, dictGet inv.books title = some b →
      (pyLower confirm = "y" ∨ b.stock = 0) →
      inv.remove_book title confirm ts =
        (true,
          { books := dictDelete inv.books title
            transaction_log := inv.transaction_log ++
              [⟨ts, "REMOVE_BOOK", title,
                 .removeBook b.title b.author b.stock⟩] })) := by
  refine ⟨?_, ?_, ?_⟩
  · intro h
    unfold Inventory.remove_book
    rw [h]
  · intro b hb hs hc
    unfold Inventory.remove_book
    rw [hb]
    dsimp only
    rw [if_pos ⟨hs, hc⟩]
  · intro b hb hok
    unfold Inventory.remove_book
    rw [hb]
    dsimp only
    rw [if_neg]
    · rfl
    · rintro ⟨h1, h2⟩
      rcases hok with hy | h0
      · exact h2 hy
      · omega

/-- Witness for `remove_book_cases`: the spec's scenario — removing
`"Dune"` with stock `3` and a `"n"` answer aborts with no change — and
the confirmed removal with answer `"Y"`. -/
theorem remove_book_cases_witness :
    demoInv.remove_book "Dune" "n" "t3" = (false, demoInv) ∧
    demoInv.remove_book "Dune" "Y" "t3" =
      (true,
        { books := dictDelete demoInv.books "Dune"
          transaction_log := demoInv.transaction_log ++
            [⟨"t3", "REMOVE_BOOK", "Dune",
               .removeBook "Dune" "Herbert" 3⟩] }) := by
  have h := remove_book_cases demoInv "Dune" "n" "t3"
  have h2 := remove_book_cases demoInv "Dune" "Y" "t3"
  exact ⟨h.2.1 demoBook (by decide) (by decide) (by decide),
         h2.2.2 demoBook (by decide) (Or.inl (by decide))⟩

end Task2

namespace Task2

lemma substrB_nil (l : List Char) : substrB [] l = true := by
  cases l <;> rfl

lemma substrB_iff (p l : List Char) : substrB p l = true ↔ p <:+: l := by
  induction l with
  | nil =>
    show p.isPrefixOf [] = true ↔ p <:+: []
    rw [List.isPrefixOf_iff_prefix, List.infix_nil, List.prefix_nil]
  | cons c rest ih =>
    show (p.isPrefixOf (c :: rest) || substrB p rest) = true ↔ p <:+: c :: rest
    rw [Bool.or_eq_true, List.isPrefixOf_iff_prefix, ih, List.infix_cons_iff]

/-- C10: in `find_book`, a query that lowercases and strips to the empty
string matches every book (the empty string is a prefix of every string,
hence a substring), so the whole book list is returned; in general a
book is returned exactly when the processed query occurs as a substring
of its lowercased title or its lowercased author. -/
theorem find_book_spec (inv : Inventory) (query : String) :
    (pyStrip (pyLower query) = "" →
      inv.find_book query = inv.books.map Prod.snd) ∧
    (∀ b, b ∈ inv.find_book query ↔
      b ∈ inv.books.map Prod.snd ∧
        ((pyStrip (pyLower query)).data <:+: (pyLower b.title).data ∨
         (pyStrip (pyLower query)).data <:+: (pyLower b.author).data)) := by
  constructor
  · intro h
    unfold Inventory.find_book
    dsimp only
    rw [h]
    have hd : ("" : String).data = [] := rfl
    simp only [hd, substrB_nil, Bool.true_or, List.filter_true]
  · intro b
    unfold Inventory.find_book
    dsimp only
    rw [List.mem_filter]
    simp only [Bool.or_eq_true, substrB_iff]
    constructor
    · rintro ⟨hm, hq⟩
      exact ⟨hm, by tauto⟩
    · rintro ⟨hm, hq⟩
      exact ⟨hm, by tauto⟩

/-- Witness for `find_book_spec`: the whitespace-only query `" "` strips
to the empty string and returns every book of `demoInv`. -/
theorem find_book_spec_witness :
    demoInv.find_book " " = demoInv.books.map Prod.snd :=
  (find_book_spec demoInv " ").1 (by decide)

end Task2

namespace Task2

/-- C8, counterexample: on a present document whose first book is valid
and whose second book is missing a required field, `load_inventory`
catches the error (returns `False`) but the repository is NOT left in
the empty state: the books inserted before the failure stay (the loop
`self.books[title] = Book.from_dict(book_data)` has already run for
them). -/
theorem load_malformed_keeps_partial_state :
    (load_inventory emptyInventory ⟨some partialDoc, none⟩).1 = false ∧
    (load_inventory emptyInventory ⟨some partialDoc, none⟩).2.books ≠ [] := by
  exact ⟨rfl, by decide⟩

/-- C8, amended: `load_inventory` on an absent file is a fresh start
(success, state untouched — empty when called from `__init__`); a file
that fails to parse is caught and leaves the state untouched; a parsed
document either loads completely (books as inserted by the loop, ledger
replaced by the document's) or fails partway, keeping the books inserted
before the failure — a partial, possibly non-empty state — and the
pre-existing (empty at startup) ledger. -/
theorem load_inventory_cases (inv : Inventory) (bk : Option FileContent) :
    (load_inventory inv ⟨none, bk⟩ = (true, inv)) ∧
    (load_inventory inv ⟨some .malformed, bk⟩ = (false, inv)) ∧
    (∀ bks log books1, loadBooksLoop bks inv.books = (true, books1) →
      load_inventory inv ⟨some (.doc bks log), bk⟩ = (true, ⟨books1, log⟩)) ∧
    (∀ bks log books1, loadBooksLoop bks inv.books = (false, books1) →
      load_inventory inv ⟨some (.doc bks log), bk⟩ =
        (false, ⟨books1, inv.transaction_log⟩)) := by
  refine ⟨rfl, rfl, ?_, ?_⟩
  · intro bks log books1 h
    unfold load_inventory
    dsimp only
    rw [h]
  · intro bks log books1 h
    unfold load_inventory
    dsimp only
    rw [h]

/-- Witness for `load_inventory_cases`: all four cases at concrete
inputs — absent file, unparsable file, a fully-loading document, and
`partialBooks` failing at its second book while the first stays. -/
theorem load_inventory_cases_witness :
    load_inventory demoInv ⟨none, none⟩ = (true, demoInv) ∧
    load_inventory demoInv ⟨some .malformed, none⟩ = (false, demoInv) ∧
    load_inventory emptyInventory
        ⟨some (.doc [] [⟨"t9", "REMOVE_BOOK", "B", .removeBook "B" "x" 0⟩]), none⟩ =
      (true, ⟨[], [⟨"t9", "REMOVE_BOOK", "B", .removeBook "B" "x" 0⟩]⟩) ∧
    load_inventory emptyInventory ⟨some (.doc partialBooks []), none⟩ =
      (false, ⟨[("Good", Book.init "Good" "G" ⟨2, 1⟩ 1)], []⟩) := by
  have h1 := load_inventory_cases demoInv (none : Option FileContent)
  have h2 := load_inventory_cases emptyInventory (none : Option FileContent)
  exact ⟨h1.1, h1.2.1,
         h2.2.2.1 [] [⟨"t9", "REMOVE_BOOK", "B", .removeBook "B" "x" 0⟩] [] (by decide),
         h2.2.2.2 partialBooks [] [("Good", Book.init "Good" "G" ⟨2, 1⟩ 1)] (by decide)⟩

end Task2
